import Mathlib

/-!
Shallow embedding of `src/hex_grid.rs` (hex-grid terrain mesh generator).

Vertex positions are modelled over `ℚ` (the index-buffer bookkeeping the
claims are about never depends on floating-point rounding), `u32` index
arithmetic over `Nat` (all values stay far below `2^32`, see the bounds
proved below), and the growable `Vec` buffers as Lean lists.
-/

/-- `bevy::Vec3` (three `f32` components), modelled over `ℚ`. -/
structure Vec3 where
  x : ℚ
  y : ℚ
  z : ℚ
deriving DecidableEq

/-- `bevy::Vec2`, modelled over `ℚ`. -/
structure Vec2 where
  x : ℚ
  y : ℚ
deriving DecidableEq

instance : Add Vec3 := ⟨fun a b => ⟨a.x + b.x, a.y + b.y, a.z + b.z⟩⟩

/-- `Vec3::xz()`: the XZ projection used for the UV coordinates. -/
def Vec3.xz (v : Vec3) : Vec2 := ⟨v.x, v.z⟩

/-- `Vec3::Y`, the up vector. -/
def Vec3.Y : Vec3 := ⟨0, 1, 0⟩

/-- `Vec3 * f32` (componentwise scalar multiplication). -/
def Vec3.scale (v : Vec3) (c : ℚ) : Vec3 := ⟨v.x * c, v.y * c, v.z * c⟩

/-- `const MAP_SIZE: u32 = 2` -/
def MAP_SIZE : Nat := 2

/-- `const OUTER_RADIUS: f32 = 1.` -/
def OUTER_RADIUS : ℚ := 1

/-- `const INNER_RADIUS: f32 = OUTER_RADIUS * 0.866025404` -/
def INNER_RADIUS : ℚ := OUTER_RADIUS * (866025404 / 1000000000)

/-- `const NOISE_SCALE: f64 = 3.` -/
def NOISE_SCALE : ℚ := 3

/-- `const CHUNK_SIZE: u32 = 32` -/
def CHUNK_SIZE : Nat := 32

/-- `const HEX_CORNERS: [Vec3; 6]` -/
def HEX_CORNERS : List Vec3 :=
  [⟨0, 0, OUTER_RADIUS⟩,
   ⟨INNER_RADIUS, 0, (1/2) * OUTER_RADIUS⟩,
   ⟨INNER_RADIUS, 0, -((1/2) * OUTER_RADIUS)⟩,
   ⟨0, 0, -OUTER_RADIUS⟩,
   ⟨-INNER_RADIUS, 0, -((1/2) * OUTER_RADIUS)⟩,
   ⟨-INNER_RADIUS, 0, (1/2) * OUTER_RADIUS⟩]

/-- `HEX_CORNERS[i]` (only ever read at `i < 6`). -/
def hexCorner (i : Nat) : Vec3 := HEX_CORNERS.getD i ⟨0, 0, 0⟩

/-- Modelled from the spec: the `noise` crate's `SuperSimplex` 2-D coherent
noise generator is an external dependency whose source is not part of this
repository.  Per spec §4.1 it is a pure function of the seed (fixed at
construction) and the two coordinates, deterministic for a fixed seed, with
output in roughly `[-1, 1]` and not a hard-coded constant (varying the seed
changes the output).  We model it as a seeded integer-hash noise with exactly
those properties. -/
structure SuperSimplex where
  seed : Nat
deriving DecidableEq

/-- Modelled from the spec: `SuperSimplex::new(seed)`. -/
def SuperSimplex.new (seed : Nat) : SuperSimplex := ⟨seed⟩

/-- Modelled from the spec: `noise.get([px, pz])`, a deterministic seeded
2-D noise value in roughly `[-1, 1]`. -/
def SuperSimplex.get (s : SuperSimplex) (p : ℚ × ℚ) : ℚ :=
  let hx : Int := ⌊p.1 * 4096⌋
  let hz : Int := ⌊p.2 * 4096⌋
  let h : Int := (hx * 374761393 + hz * 668265263 + (s.seed : Int) * 1013904223) % 2000001
  ((h : ℚ) - 1000000) / 1000000

/-- `fn sample_height(x: u32, y: u32, noise: &SuperSimplex) -> f32` -/
def sample_height (x y : Nat) (noise : SuperSimplex) : ℚ :=
  noise.get ((x : ℚ) / NOISE_SCALE, (y : ℚ) / NOISE_SCALE)

/-- `fn to_hex_pos(pos: Vec3) -> Vec3` -/
def to_hex_pos (pos : Vec3) : Vec3 :=
  let x := (pos.x + pos.z * (1/2) - (⌊pos.z / 2⌋ : ℚ)) * (INNER_RADIUS * 2)
  ⟨x, pos.y, pos.z * OUTER_RADIUS * (3/2)⟩

/-- The four parallel mesh buffers accumulated by `create_chunk`
(`verts`, `uvs`, `normals`, `indices`). -/
structure MeshBuffers where
  verts : List Vec3
  uvs : List Vec2
  normals : List Vec3
  indices : List Nat
deriving DecidableEq

/-- `fn create_quad(v1, v2, v3, v4, indices, verts)`.  The height-equality
early return in the source is commented out, so the six index entries are
pushed unconditionally; `verts` is received but never used. -/
def create_quad (v1 v2 v3 v4 : Nat) (indices : List Nat) (verts : List Vec3) :
    List Nat :=
  indices ++ [v1, v3, v2, v1, v4, v3]

/-- `fn create_tile(pos, verts, uvs, normals, indices)` -/
def create_tile (pos : Vec3) (b : MeshBuffers) : MeshBuffers :=
  let idx := b.verts.length
  let b0 : MeshBuffers :=
    { b with
      normals := b.normals ++ [Vec3.Y],
      uvs := b.uvs ++ [pos.xz],
      verts := b.verts ++ [pos] }
  (List.range 6).foldl (fun bb i =>
    { bb with
      verts := bb.verts ++ [pos + hexCorner i],
      uvs := bb.uvs ++ [(pos + hexCorner i).xz],
      normals := bb.normals ++ [Vec3.Y],
      indices := bb.indices ++ [idx, idx + 1 + i, idx + 1 + ((i + 1) % 6)] }) b0

/-- `const TILE_WIDTH: u32 = 7` (local to `add_tile_sides`). -/
def TILE_WIDTH : Nat := 7

/-- `const ROW_WIDTH: u32 = CHUNK_SIZE * TILE_WIDTH` (local to
`add_tile_sides`). -/
def ROW_WIDTH : Nat := CHUNK_SIZE * TILE_WIDTH

/-- First `if` block of `add_tile_sides`: the east-neighbor stitch. -/
def east_side (x c_tile : Nat) (indices : List Nat) (verts : List Vec3) :
    List Nat :=
  if x < CHUNK_SIZE - 1 then
    let n_tile := c_tile + TILE_WIDTH
    create_quad (c_tile + 1) (c_tile + 2) (n_tile + 4) (n_tile + 5) indices verts
  else indices

/-- Second `if` block of `add_tile_sides`: the row-parity-dependent
south-neighbor stitch. -/
def south_side (x z c_tile : Nat) (indices : List Nat) (verts : List Vec3) :
    List Nat :=
  if z < CHUNK_SIZE - 1 then
    if z % 2 = 0 then
      let d_tile := c_tile + ROW_WIDTH
      create_quad c_tile (c_tile + 1) (d_tile + 3) (d_tile + 4) indices verts
    else if x < CHUNK_SIZE - 1 then
      let d_tile := c_tile + ROW_WIDTH + TILE_WIDTH
      create_quad c_tile (c_tile + 1) (d_tile + 3) (d_tile + 4) indices verts
    else indices
  else indices

/-- Third `if` block of `add_tile_sides` (`x > 0 && z % 2 == 0`). -/
def west_side (x z c_tile : Nat) (indices : List Nat) (verts : List Vec3) :
    List Nat :=
  if 0 < x ∧ z % 2 = 0 then
    let d_tile := c_tile + ROW_WIDTH - TILE_WIDTH
    create_quad (c_tile + 5) c_tile (d_tile + 2) (d_tile + 3) indices verts
  else indices

/-- Fourth `if` block of `add_tile_sides` (`z % 2 == 1 && z < CHUNK_SIZE - 1`). -/
def southeast_side (z c_tile : Nat) (indices : List Nat) (verts : List Vec3) :
    List Nat :=
  if z % 2 = 1 ∧ z < CHUNK_SIZE - 1 then
    let d_tile := c_tile + ROW_WIDTH
    create_quad (c_tile + 5) c_tile (d_tile + 2) (d_tile + 3) indices verts
  else indices

/-- `fn add_tile_sides(x, z, idx, indices, verts)`: the four sequential
`if` blocks, in source order. -/
def add_tile_sides (x z idx : Nat) (indices : List Nat) (verts : List Vec3) :
    List Nat :=
  let c_tile := idx + 1
  southeast_side z c_tile
    (west_side x z c_tile
      (south_side x z c_tile
        (east_side x c_tile indices verts) verts) verts) verts

/-- Body of the `for z in 0..CHUNK_SIZE` loop in the `c_x < MAP_SIZE - 1`
branch of `add_chunk_sides` (the top / `+x` chunk seam). -/
def top_side_step (c_x c_z z : Nat) (noise : SuperSimplex) (bb : MeshBuffers) :
    MeshBuffers :=
  let x := CHUNK_SIZE - 1
  let c_tile := x * 7 + z * 7 * CHUNK_SIZE + 1
  let height := sample_height (x + 1 + c_x * CHUNK_SIZE) (z + c_z * CHUNK_SIZE) noise
  let off_pos : Vec3 := ⟨(x : ℚ), height, (z : ℚ)⟩
  let grid_pos := to_hex_pos off_pos
  -- second `sample_height` call at line 174 of the source; result discarded
  let discarded := sample_height (x + 1 + c_x * CHUNK_SIZE) (z + c_z * CHUNK_SIZE) noise
  let idx := bb.verts.length
  let bb : MeshBuffers :=
    { bb with
      verts := bb.verts ++ [grid_pos + hexCorner 2],
      uvs := bb.uvs ++ [(grid_pos + hexCorner 2).xz],
      normals := bb.normals ++ [Vec3.Y] }
  let bb : MeshBuffers :=
    { bb with
      verts := bb.verts ++ [grid_pos + hexCorner 1],
      uvs := bb.uvs ++ [(grid_pos + hexCorner 1).xz],
      normals := bb.normals ++ [Vec3.Y] }
  let bb : MeshBuffers :=
    { bb with
      indices := create_quad (c_tile + 1) (c_tile + 2) idx (idx + 1) bb.indices bb.verts }
  if z % 2 = 1 ∧ 0 < z then
    let height2 := sample_height (x + 1 + c_x * CHUNK_SIZE) (z + 1 + c_z * CHUNK_SIZE) noise
    let off_pos2 : Vec3 := ⟨(x : ℚ), height2, (z : ℚ)⟩
    let grid_pos2 := to_hex_pos off_pos2
    let bb : MeshBuffers :=
      { bb with
        verts := bb.verts ++ [grid_pos2 + hexCorner 3],
        uvs := bb.uvs ++ [(grid_pos2 + hexCorner 3).xz],
        normals := bb.normals ++ [Vec3.Y] }
    { bb with
      indices := create_quad (c_tile + 2) (c_tile + 3) (idx + 1) (idx + 2) bb.indices bb.verts }
  else bb

/-- Body of the `for x in 0..CHUNK_SIZE` loop in the
`c_z < CHUNK_SIZE * (MAP_SIZE - 1)` branch of `add_chunk_sides` (the right /
`+z` chunk seam): it samples a height and computes a position but pushes
nothing into any buffer. -/
def right_side_step (c_x c_z x : Nat) (noise : SuperSimplex) (bb : MeshBuffers) :
    MeshBuffers :=
  let z := c_z + CHUNK_SIZE
  let height := sample_height (x + c_x) (z + c_z) noise
  let off_pos : Vec3 := ⟨(x : ℚ), height, (z : ℚ)⟩
  let grid_pos := to_hex_pos off_pos
  bb

/-- `fn add_chunk_sides(c_x, c_z, verts, indices, normals, uvs, noise)` -/
def add_chunk_sides (c_x c_z : Nat) (noise : SuperSimplex) (b : MeshBuffers) :
    MeshBuffers :=
  let b1 :=
    if c_x < MAP_SIZE - 1 then
      (List.range CHUNK_SIZE).foldl (fun bb z => top_side_step c_x c_z z noise bb) b
    else b
  if c_z < CHUNK_SIZE * (MAP_SIZE - 1) then
    (List.range CHUNK_SIZE).foldl (fun bb x => right_side_step c_x c_z x noise bb) b1
  else b1

/-- First double loop of `create_chunk`: build every tile cap. -/
def chunk_tiles (c_x c_z : Nat) (noise : SuperSimplex) (b : MeshBuffers) :
    MeshBuffers :=
  (List.range CHUNK_SIZE).foldl (fun bz z =>
    (List.range CHUNK_SIZE).foldl (fun bx x =>
      let height := sample_height (x + c_x * CHUNK_SIZE) (z + c_z * CHUNK_SIZE) noise
      let off_pos : Vec3 := ⟨(x : ℚ), height, (z : ℚ)⟩
      let grid_pos := to_hex_pos off_pos
      create_tile grid_pos bx) bz) b

/-- Second double loop of `create_chunk`: stitch every tile to its
neighbors. -/
def chunk_stitch (indices : List Nat) (verts : List Vec3) : List Nat :=
  (List.range CHUNK_SIZE).foldl (fun iz z =>
    (List.range CHUNK_SIZE).foldl (fun ix x =>
      add_tile_sides x z (x * 7 + z * CHUNK_SIZE * 7) ix verts) iz) indices

/-- `fn create_chunk(c_x, c_z, noise) -> Mesh`: the four buffers handed to
`Mesh::new` (the mesh artifact is exactly these buffers). -/
def create_chunk (c_x c_z : Nat) (noise : SuperSimplex) : MeshBuffers :=
  let b := chunk_tiles c_x c_z noise ⟨[], [], [], []⟩
  let b : MeshBuffers := { b with indices := chunk_stitch b.indices b.verts }
  add_chunk_sides c_x c_z noise b

/-- `fn create_hex_grid(..)`: one `(translation, mesh)` pair is spawned per
chunk, iterating `for z in 0..MAP_SIZE { for x in 0..MAP_SIZE { .. } }`. -/
def create_hex_grid : List (Vec3 × MeshBuffers) :=
  let noise := SuperSimplex.new 1
  (List.range MAP_SIZE).flatMap (fun (z : Nat) =>
    (List.range MAP_SIZE).map (fun (x : Nat) =>
      let pos := to_hex_pos (Vec3.scale ⟨(x : ℚ), 0, (z : ℚ)⟩ (CHUNK_SIZE : ℚ))
      (pos, create_chunk x z noise)))

/-! ### Unfolding `create_tile` -/

lemma create_tile_eq (p : Vec3) (b : MeshBuffers) :
    create_tile p b =
      { verts := b.verts ++ [p, p + hexCorner 0, p + hexCorner 1, p + hexCorner 2,
          p + hexCorner 3, p + hexCorner 4, p + hexCorner 5],
        uvs := b.uvs ++ [p.xz, (p + hexCorner 0).xz, (p + hexCorner 1).xz,
          (p + hexCorner 2).xz, (p + hexCorner 3).xz, (p + hexCorner 4).xz,
          (p + hexCorner 5).xz],
        normals := b.normals ++ [Vec3.Y, Vec3.Y, Vec3.Y, Vec3.Y, Vec3.Y, Vec3.Y, Vec3.Y],
        indices := b.indices ++ [b.verts.length, b.verts.length + 1, b.verts.length + 2,
          b.verts.length, b.verts.length + 2, b.verts.length + 3,
          b.verts.length, b.verts.length + 3, b.verts.length + 4,
          b.verts.length, b.verts.length + 4, b.verts.length + 5,
          b.verts.length, b.verts.length + 5, b.verts.length + 6,
          b.verts.length, b.verts.length + 6, b.verts.length + 1] } := by
  have h6 : List.range 6 = [0, 1, 2, 3, 4, 5] := rfl
  unfold create_tile
  rw [h6]
  simp [List.foldl_cons, List.foldl_nil, List.append_assoc]

/-! ### The mesh-buffer invariant and its preservation -/

/-- The parallel-buffer invariant of the spec's `MeshBuffers` data model:
UVs and normals track positions one-to-one and every index entry refers to an
existing position. -/
def MeshWF (b : MeshBuffers) : Prop :=
  b.uvs.length = b.verts.length ∧ b.normals.length = b.verts.length ∧
    ∀ i ∈ b.indices, i < b.verts.length

lemma create_tile_wf (p : Vec3) (b : MeshBuffers) (h : MeshWF b) :
    MeshWF (create_tile p b) ∧
      (create_tile p b).verts.length = b.verts.length + 7 := by
  obtain ⟨hu, hn, hi⟩ := h
  rw [create_tile_eq]
  refine ⟨⟨?_, ?_, ?_⟩, ?_⟩
  · simp [hu]
  · simp [hn]
  · intro i hmem
    simp only [List.mem_append, List.mem_cons, List.not_mem_nil, or_false] at hmem
    rcases hmem with hmem | hmem
    · have := hi i hmem
      simp only [List.length_append, List.length_cons, List.length_nil]
      omega
    · simp only [List.length_append, List.length_cons, List.length_nil]
      omega
  · simp

/-- Any fold whose step preserves `MeshWF` and grows `verts` by exactly `k`
elements preserves `MeshWF` and grows `verts` by `k * length`. -/
lemma foldl_wf_len {α : Type} (step : MeshBuffers → α → MeshBuffers) (k : Nat)
    (hstep : ∀ b a, MeshWF b →
      MeshWF (step b a) ∧ (step b a).verts.length = b.verts.length + k) :
    ∀ (l : List α) (b : MeshBuffers), MeshWF b →
      MeshWF (l.foldl step b) ∧
        (l.foldl step b).verts.length = b.verts.length + k * l.length := by
  intro l
  induction l with
  | nil => intro b hb; simpa using hb
  | cons a t ih =>
    intro b hb
    obtain ⟨h1, h2⟩ := hstep b a hb
    obtain ⟨h3, h4⟩ := ih (step b a) h1
    refine ⟨by simpa using h3, ?_⟩
    simp only [List.foldl_cons, List.length_cons] at h4 ⊢
    rw [h4, h2]
    ring

lemma chunk_tiles_wf (c_x c_z : Nat) (noise : SuperSimplex) (b : MeshBuffers)
    (h : MeshWF b) :
    MeshWF (chunk_tiles c_x c_z noise b) ∧
      (chunk_tiles c_x c_z noise b).verts.length = b.verts.length + 7168 := by
  have hrow : ∀ (z : Nat) (bz : MeshBuffers), MeshWF bz →
      MeshWF ((List.range CHUNK_SIZE).foldl (fun bx x =>
        let height := sample_height (x + c_x * CHUNK_SIZE) (z + c_z * CHUNK_SIZE) noise
        let off_pos : Vec3 := ⟨(x : ℚ), height, (z : ℚ)⟩
        let grid_pos := to_hex_pos off_pos
        create_tile grid_pos bx) bz) ∧
      ((List.range CHUNK_SIZE).foldl (fun bx x =>
        let height := sample_height (x + c_x * CHUNK_SIZE) (z + c_z * CHUNK_SIZE) noise
        let off_pos : Vec3 := ⟨(x : ℚ), height, (z : ℚ)⟩
        let grid_pos := to_hex_pos off_pos
        create_tile grid_pos bx) bz).verts.length = bz.verts.length + 224 := by
    intro z bz hz
    have := foldl_wf_len
      (fun bx x =>
        let height := sample_height (x + c_x * CHUNK_SIZE) (z + c_z * CHUNK_SIZE) noise
        let off_pos : Vec3 := ⟨(x : ℚ), height, (z : ℚ)⟩
        let grid_pos := to_hex_pos off_pos
        create_tile grid_pos bx) 7
      (fun bb a hb => create_tile_wf _ bb hb) (List.range CHUNK_SIZE) bz hz
    simpa [CHUNK_SIZE] using this
  have := foldl_wf_len
    (fun bz z =>
      (List.range CHUNK_SIZE).foldl (fun bx x =>
        let height := sample_height (x + c_x * CHUNK_SIZE) (z + c_z * CHUNK_SIZE) noise
        let off_pos : Vec3 := ⟨(x : ℚ), height, (z : ℚ)⟩
        let grid_pos := to_hex_pos off_pos
        create_tile grid_pos bx) bz) 224
    (fun bz z hz => hrow z bz hz) (List.range CHUNK_SIZE) b h
  simpa [chunk_tiles, CHUNK_SIZE] using this

/-! ### Index bounds for the tile-stitch pass -/

lemma add_tile_sides_mem (x z idx : Nat) (ind : List Nat) (verts : List Vec3)
    (hx : x < 32) (hz : z < 32) (hidx : idx = x * 7 + z * CHUNK_SIZE * 7) :
    ∀ i ∈ add_tile_sides x z idx ind verts, i ∈ ind ∨ i < 7168 := by
  subst hidx
  intro i hi
  by_cases hmem : i ∈ ind
  · exact Or.inl hmem
  · right
    unfold add_tile_sides east_side south_side west_side southeast_side create_quad at hi
    simp only [CHUNK_SIZE, TILE_WIDTH, ROW_WIDTH] at hi
    split_ifs at hi <;>
      simp only [List.mem_append, List.mem_cons, List.not_mem_nil, or_false, hmem,
        false_or] at hi <;>
      omega

/-- Any fold on the index buffer whose step only appends entries satisfying
`P` keeps every entry either in the initial buffer or satisfying `P`. -/
lemma foldl_ind_mem {α : Type} (step : List Nat → α → List Nat) (P : Nat → Prop) :
    ∀ (l : List α), (∀ ind a, a ∈ l → ∀ i ∈ step ind a, i ∈ ind ∨ P i) →
      ∀ ind, ∀ i ∈ l.foldl step ind, i ∈ ind ∨ P i := by
  intro l
  induction l with
  | nil => intro _ ind i hi; exact Or.inl (by simpa using hi)
  | cons a t ih =>
    intro hstep ind i hi
    simp only [List.foldl_cons] at hi
    have ht := ih (fun ind' a' ha' => hstep ind' a' (List.mem_cons_of_mem a ha'))
      (step ind a) i hi
    rcases ht with ht | ht
    · exact hstep ind a (List.mem_cons_self a t) i ht
    · exact Or.inr ht

lemma chunk_stitch_mem (ind : List Nat) (verts : List Vec3) :
    ∀ i ∈ chunk_stitch ind verts, i ∈ ind ∨ i < 7168 := by
  unfold chunk_stitch
  apply foldl_ind_mem
  intro iz z hzmem
  have hz : z < 32 := by simpa [CHUNK_SIZE] using List.mem_range.mp hzmem
  apply foldl_ind_mem
  intro ix x hxmem
  have hx : x < 32 := by simpa [CHUNK_SIZE] using List.mem_range.mp hxmem
  exact add_tile_sides_mem x z _ ix verts hx hz rfl

/-! ### The chunk-seam pass preserves the invariant -/

lemma top_side_step_wf (c_x c_z z : Nat) (noise : SuperSimplex) (b : MeshBuffers)
    (hz : z < 32) (h : MeshWF b) (hlen : 7168 ≤ b.verts.length) :
    MeshWF (top_side_step c_x c_z z noise b) ∧
      7168 ≤ (top_side_step c_x c_z z noise b).verts.length := by
  obtain ⟨hu, hn, hi⟩ := h
  unfold top_side_step create_quad
  split_ifs <;>
    refine ⟨⟨by simp [hu], by simp [hn], ?_⟩, by simp; omega⟩ <;>
    · intro i hmem
      by_cases hold : i ∈ b.indices
      · have := hi i hold
        simp only [List.length_append, List.length_cons, List.length_nil]
        omega
      · simp only [List.mem_append, List.mem_cons, List.not_mem_nil, or_false,
          hold, false_or, CHUNK_SIZE] at hmem
        simp only [List.length_append, List.length_cons, List.length_nil]
        omega

lemma foldl_buffers_inv {α : Type} (step : MeshBuffers → α → MeshBuffers)
    (Q : MeshBuffers → Prop) :
    ∀ (l : List α), (∀ b a, a ∈ l → Q b → Q (step b a)) →
      ∀ b, Q b → Q (l.foldl step b) := by
  intro l
  induction l with
  | nil => intro _ b hb; simpa using hb
  | cons a t ih =>
    intro hstep b hb
    simp only [List.foldl_cons]
    exact ih (fun b' a' ha' => hstep b' a' (List.mem_cons_of_mem a ha'))
      (step b a) (hstep b a (List.mem_cons_self a t) hb)

lemma right_side_fold_id (c_x c_z : Nat) (noise : SuperSimplex)
    (l : List Nat) (b : MeshBuffers) :
    l.foldl (fun bb x => right_side_step c_x c_z x noise bb) b = b := by
  induction l with
  | nil => rfl
  | cons a t ih => simp only [List.foldl_cons]; exact ih

lemma add_chunk_sides_eq_top (c_x c_z : Nat) (noise : SuperSimplex)
    (b : MeshBuffers) :
    add_chunk_sides c_x c_z noise b =
      if c_x < MAP_SIZE - 1 then
        (List.range CHUNK_SIZE).foldl (fun bb z => top_side_step c_x c_z z noise bb) b
      else b := by
  unfold add_chunk_sides
  split_ifs <;> simp [right_side_fold_id]

lemma add_chunk_sides_wf (c_x c_z : Nat) (noise : SuperSimplex) (b : MeshBuffers)
    (h : MeshWF b) (hlen : 7168 ≤ b.verts.length) :
    MeshWF (add_chunk_sides c_x c_z noise b) := by
  rw [add_chunk_sides_eq_top]
  split_ifs
  · have := foldl_buffers_inv
      (fun bb z => top_side_step c_x c_z z noise bb)
      (fun bb => MeshWF bb ∧ 7168 ≤ bb.verts.length)
      (List.range CHUNK_SIZE)
      (fun bb z hzmem hq =>
        top_side_step_wf c_x c_z z noise bb
          (by simpa [CHUNK_SIZE] using List.mem_range.mp hzmem) hq.1 hq.2)
      b ⟨h, hlen⟩
    exact this.1
  · exact h

lemma create_chunk_wf (c_x c_z : Nat) (noise : SuperSimplex) :
    MeshWF (create_chunk c_x c_z noise) ∧
      7168 ≤ (create_chunk c_x c_z noise).verts.length := by
  have h0 : MeshWF ⟨[], [], [], []⟩ := by
    refine ⟨rfl, rfl, ?_⟩
    intro i hi
    simp at hi
  obtain ⟨h1, h2⟩ := chunk_tiles_wf c_x c_z noise ⟨[], [], [], []⟩ h0
  set b1 := chunk_tiles c_x c_z noise ⟨[], [], [], []⟩ with hb1
  have hlen : b1.verts.length = 7168 := by
    simpa using h2
  have h3 : MeshWF { b1 with indices := chunk_stitch b1.indices b1.verts } := by
    obtain ⟨hu, hn, hi⟩ := h1
    refine ⟨hu, hn, ?_⟩
    intro i hmem
    rcases chunk_stitch_mem b1.indices b1.verts i hmem with hm | hm
    · exact hi i hm
    · show i < b1.verts.length
      omega
  unfold create_chunk
  rw [← hb1]
  have h4 : 7168 ≤ ({ b1 with indices := chunk_stitch b1.indices b1.verts } :
      MeshBuffers).verts.length := by
    simp [hlen]
  constructor
  · exact add_chunk_sides_wf c_x c_z noise _ h3 h4
  · have hstep : ∀ (bb : MeshBuffers) (z : Nat), z ∈ List.range CHUNK_SIZE →
        (MeshWF bb ∧ 7168 ≤ bb.verts.length) →
        (MeshWF (top_side_step c_x c_z z noise bb) ∧
          7168 ≤ (top_side_step c_x c_z z noise bb).verts.length) := by
      intro bb z hzmem hq
      exact top_side_step_wf c_x c_z z noise bb
        (by simpa [CHUNK_SIZE] using List.mem_range.mp hzmem) hq.1 hq.2
    rw [add_chunk_sides_eq_top]
    split_ifs
    · exact (foldl_buffers_inv _ _ (List.range CHUNK_SIZE) hstep _ ⟨h3, h4⟩).2
    · exact h4

/-- C1: for every chunk coordinate `(c_x, c_z)` with `c_x, c_z < MAP_SIZE`
(and any noise seed), the buffers produced by `create_chunk` have equally
long position, UV and normal buffers, and every entry of the index buffer is
strictly below the length of the position buffer. -/
theorem c1_create_chunk_buffers_invariant (c_x c_z : Nat)
    (h1 : c_x < MAP_SIZE) (h2 : c_z < MAP_SIZE) (noise : SuperSimplex) :
    (create_chunk c_x c_z noise).uvs.length =
        (create_chunk c_x c_z noise).verts.length ∧
      (create_chunk c_x c_z noise).normals.length =
        (create_chunk c_x c_z noise).verts.length ∧
      ((create_chunk c_x c_z noise).indices.all
        (fun i => decide (i < (create_chunk c_x c_z noise).verts.length))) = true := by
  obtain ⟨⟨hu, hn, hi⟩, _⟩ := create_chunk_wf c_x c_z noise
  refine ⟨hu, hn, ?_⟩
  rw [List.all_eq_true]
  intro i hmem
  exact decide_eq_true (hi i hmem)

/-- Witness for C1 at chunk `(0, 0)` with the seed the source uses. -/
theorem c1_create_chunk_buffers_invariant_witness :
    0 < MAP_SIZE ∧
      ((create_chunk 0 0 (SuperSimplex.new 1)).uvs.length =
          (create_chunk 0 0 (SuperSimplex.new 1)).verts.length ∧
        (create_chunk 0 0 (SuperSimplex.new 1)).normals.length =
          (create_chunk 0 0 (SuperSimplex.new 1)).verts.length ∧
        ((create_chunk 0 0 (SuperSimplex.new 1)).indices.all
          (fun i => decide (i <
            (create_chunk 0 0 (SuperSimplex.new 1)).verts.length))) = true) :=
  ⟨by decide,
    c1_create_chunk_buffers_invariant 0 0 (by decide) (by decide) (SuperSimplex.new 1)⟩

/-- C2: for every tile with an east neighbor (`x + 1 < CHUNK_SIZE`) the
stitcher emits exactly one bridging quad, from this tile's corners 1 and 2
(`c_tile + 1`, `c_tile + 2`, where `c_tile = idx + 1`) to the east
neighbor's corners 4 and 5 (`n_tile + 4`, `n_tile + 5`, where
`n_tile = c_tile + TILE_WIDTH`); when `x + 1 ≥ CHUNK_SIZE` no east quad is
emitted. -/
theorem c2_east_neighbor_stitch (x idx : Nat) (ind : List Nat) (verts : List Vec3) :
    (x + 1 < CHUNK_SIZE →
      east_side x (idx + 1) ind verts =
        create_quad ((idx + 1) + 1) ((idx + 1) + 2)
          (((idx + 1) + TILE_WIDTH) + 4) (((idx + 1) + TILE_WIDTH) + 5) ind verts ∧
      (east_side x (idx + 1) ind verts).length = ind.length + 6) ∧
    (CHUNK_SIZE ≤ x + 1 → east_side x (idx + 1) ind verts = ind) := by
  constructor
  · intro hx
    have hcond : x < CHUNK_SIZE - 1 := by
      simp only [CHUNK_SIZE] at hx ⊢
      omega
    exact ⟨by simp [east_side, hcond], by simp [east_side, hcond, create_quad]⟩
  · intro hx
    have hcond : ¬(x < CHUNK_SIZE - 1) := by
      simp only [CHUNK_SIZE] at hx ⊢
      omega
    simp [east_side, hcond]

/-- Witness for C2: tile `x = 0` (east neighbor exists) and tile `x = 31`
(no east neighbor), both with `idx = 0`. -/
theorem c2_east_neighbor_stitch_witness :
    (0 + 1 < CHUNK_SIZE ∧
      east_side 0 (0 + 1) [] [] =
        create_quad ((0 + 1) + 1) ((0 + 1) + 2)
          (((0 + 1) + TILE_WIDTH) + 4) (((0 + 1) + TILE_WIDTH) + 5) [] [] ∧
      (east_side 0 (0 + 1) [] []).length = ([] : List Nat).length + 6) ∧
    (CHUNK_SIZE ≤ 31 + 1 ∧ east_side 31 (0 + 1) [] [] = []) :=
  ⟨⟨by decide, (c2_east_neighbor_stitch 0 0 [] []).1 (by decide)⟩,
    ⟨by decide, (c2_east_neighbor_stitch 31 0 [] []).2 (by decide)⟩⟩

/-- C3: for every tile with `z < CHUNK_SIZE - 1`, the south stitch targets
the base `c_tile + ROW_WIDTH` when `z` is even, and
`c_tile + ROW_WIDTH + TILE_WIDTH` when `z` is odd (then only when
`x < CHUNK_SIZE - 1`), bridging this tile's corners 0 and 1 to the
neighbor's corners 3 and 4. -/
theorem c3_south_neighbor_stitch (x z c_tile : Nat) (ind : List Nat)
    (verts : List Vec3) (hz : z < CHUNK_SIZE - 1) :
    (z % 2 = 0 →
      south_side x z c_tile ind verts =
        create_quad c_tile (c_tile + 1)
          ((c_tile + ROW_WIDTH) + 3) ((c_tile + ROW_WIDTH) + 4) ind verts) ∧
    (z % 2 = 1 → x < CHUNK_SIZE - 1 →
      south_side x z c_tile ind verts =
        create_quad c_tile (c_tile + 1)
          ((c_tile + ROW_WIDTH + TILE_WIDTH) + 3)
          ((c_tile + ROW_WIDTH + TILE_WIDTH) + 4) ind verts) ∧
    (z % 2 = 1 → CHUNK_SIZE - 1 ≤ x →
      south_side x z c_tile ind verts = ind) := by
  refine ⟨fun he => ?_, fun ho hx => ?_, fun ho hx => ?_⟩
  · simp [south_side, hz, he]
  · have he : ¬(z % 2 = 0) := by omega
    simp [south_side, hz, he, hx]
  · have he : ¬(z % 2 = 0) := by omega
    have hx' : ¬(x < CHUNK_SIZE - 1) := by omega
    simp [south_side, hz, he, hx']

/-- Witness for C3: even row `(x, z) = (0, 0)`, odd row `(0, 1)`, and odd
row without an east-shifted neighbor `(31, 1)`, all with `c_tile = 1`. -/
theorem c3_south_neighbor_stitch_witness :
    (0 < CHUNK_SIZE - 1 ∧
      south_side 0 0 1 [] [] =
        create_quad 1 (1 + 1) ((1 + ROW_WIDTH) + 3) ((1 + ROW_WIDTH) + 4) [] []) ∧
    south_side 0 1 1 [] [] =
      create_quad 1 (1 + 1) ((1 + ROW_WIDTH + TILE_WIDTH) + 3)
        ((1 + ROW_WIDTH + TILE_WIDTH) + 4) [] [] ∧
    south_side 31 1 1 [] [] = [] :=
  ⟨⟨by decide, (c3_south_neighbor_stitch 0 0 1 [] [] (by decide)).1 (by decide)⟩,
    (c3_south_neighbor_stitch 0 1 1 [] [] (by decide)).2.1 (by decide) (by decide),
    (c3_south_neighbor_stitch 31 1 1 [] [] (by decide)).2.2 (by decide) (by decide)⟩

/-- C4 as stated is false: neither sweep of the corners-{0,5}-to-{2,3}
stitches uses a `-row stride` neighbor base.  At tile `(1, 2)` (even row,
`c_tile = 456`) the third block's neighbor base offset is
`+ROW_WIDTH - TILE_WIDTH`, and at tile `(1, 1)` (odd row, `c_tile = 232`)
the fourth block's is `+ROW_WIDTH`: both neighbor corner indices lie a full
row stride *above* the tile, and match no `-row stride` base even allowing a
tile-stride adjustment of `-TILE_WIDTH`, `0` or `+TILE_WIDTH`. -/
theorem c4_row_stride_counterexample :
    west_side 1 2 456 [] [] = [461, 675, 456, 461, 676, 675] ∧
    southeast_side 1 232 [] [] = [237, 458, 232, 237, 459, 458] ∧
    456 + ROW_WIDTH - TILE_WIDTH + 2 = 675 ∧
    232 + ROW_WIDTH + 2 = 458 ∧
    456 - (ROW_WIDTH : Int) + (TILE_WIDTH : Int) + 2 < (675 : Int) ∧
    456 - (ROW_WIDTH : Int) + 2 < (675 : Int) ∧
    456 - (ROW_WIDTH : Int) - (TILE_WIDTH : Int) + 2 < (675 : Int) ∧
    232 - (ROW_WIDTH : Int) + (TILE_WIDTH : Int) + 2 < (458 : Int) ∧
    232 - (ROW_WIDTH : Int) + 2 < (458 : Int) ∧
    232 - (ROW_WIDTH : Int) - (TILE_WIDTH : Int) + 2 < (458 : Int) := by
  decide

/-- C4 (amended): the corners-{0,5}-to-{2,3} stitches both use a
`+row stride` neighbor base with a parity-conditioned tile-stride
adjustment: on even rows (emitted only when `x > 0`) the base is
`c_tile + ROW_WIDTH - TILE_WIDTH`, on odd rows (emitted only when
`z < CHUNK_SIZE - 1`) it is `c_tile + ROW_WIDTH`; in both cases the quad
bridges this tile's corners 0 and 5 (`c_tile + 5`, `c_tile`) to the
neighbor's corners 2 and 3 (`d_tile + 2`, `d_tile + 3`). -/
theorem c4_west_southeast_stitch (x z c_tile : Nat) (ind : List Nat)
    (verts : List Vec3) :
    (0 < x → z % 2 = 0 →
      west_side x z c_tile ind verts =
        create_quad (c_tile + 5) c_tile
          ((c_tile + ROW_WIDTH - TILE_WIDTH) + 2)
          ((c_tile + ROW_WIDTH - TILE_WIDTH) + 3) ind verts) ∧
    (x = 0 ∨ z % 2 = 1 → west_side x z c_tile ind verts = ind) ∧
    (z % 2 = 1 → z < CHUNK_SIZE - 1 →
      southeast_side z c_tile ind verts =
        create_quad (c_tile + 5) c_tile
          ((c_tile + ROW_WIDTH) + 2) ((c_tile + ROW_WIDTH) + 3) ind verts) ∧
    (z % 2 = 0 ∨ CHUNK_SIZE - 1 ≤ z → southeast_side z c_tile ind verts = ind) := by
  refine ⟨fun hx he => ?_, fun h => ?_, fun ho hz => ?_, fun h => ?_⟩
  · simp [west_side, hx, he]
  · have : ¬(0 < x ∧ z % 2 = 0) := by omega
    simp [west_side, this]
  · simp [southeast_side, ho, hz]
  · have : ¬(z % 2 = 1 ∧ z < CHUNK_SIZE - 1) := by
      simp only [CHUNK_SIZE] at h ⊢
      omega
    simp [southeast_side, this]

/-- Witness for C4 (amended): tiles `(1, 0)` and `(0, 0)` for the even-row
block and rows `z = 1` and `z = 0` for the odd-row block, with
`c_tile = 8`. -/
theorem c4_west_southeast_stitch_witness :
    (0 < 1 ∧
      west_side 1 0 8 [] [] =
        create_quad (8 + 5) 8 ((8 + ROW_WIDTH - TILE_WIDTH) + 2)
          ((8 + ROW_WIDTH - TILE_WIDTH) + 3) [] []) ∧
    west_side 0 0 8 [] [] = [] ∧
    (1 < CHUNK_SIZE - 1 ∧
      southeast_side 1 8 [] [] =
        create_quad (8 + 5) 8 ((8 + ROW_WIDTH) + 2) ((8 + ROW_WIDTH) + 3) [] []) ∧
    southeast_side 0 8 [] [] = [] :=
  ⟨⟨by decide, (c4_west_southeast_stitch 1 0 8 [] []).1 (by decide) (by decide)⟩,
    (c4_west_southeast_stitch 0 0 8 [] []).2.1 (Or.inl rfl),
    ⟨by decide, (c4_west_southeast_stitch 0 1 8 [] []).2.2.1 (by decide) (by decide)⟩,
    (c4_west_southeast_stitch 0 0 8 [] []).2.2.2 (Or.inl (by decide))⟩

/-- C5: `create_quad` appends exactly six index entries, in the winding
order `(v1, v3, v2), (v1, v4, v3)`, unconditionally — for every `verts`
buffer, including one where the bridged sides are at equal height (the
degenerate-quad skip in the source is commented out). -/
theorem c5_create_quad_unconditional (v1 v2 v3 v4 : Nat) (ind : List Nat)
    (verts : List Vec3) :
    create_quad v1 v2 v3 v4 ind verts = ind ++ [v1, v3, v2, v1, v4, v3] ∧
      (create_quad v1 v2 v3 v4 ind verts).length = ind.length + 6 ∧
      create_quad 0 1 2 3 []
        [⟨0, 5, 0⟩, ⟨1, 5, 0⟩, ⟨0, 5, 1⟩, ⟨1, 5, 1⟩] = [0, 2, 1, 0, 3, 2] := by
  refine ⟨rfl, by simp [create_quad], rfl⟩

/-- C6: the hex-layout transform maps `(0,0,0) ↦ (0,0,0)`,
`(1,0,0) ↦ (2·INNER_RADIUS, 0, 0)`, `(0,0,1) ↦ (INNER_RADIUS, 0,
1.5·OUTER_RADIUS)`, and passes the `y` component through unchanged on every
input. -/
theorem c6_to_hex_pos_constants :
    to_hex_pos ⟨0, 0, 0⟩ = ⟨0, 0, 0⟩ ∧
      to_hex_pos ⟨1, 0, 0⟩ = ⟨2 * INNER_RADIUS, 0, 0⟩ ∧
      to_hex_pos ⟨0, 0, 1⟩ = ⟨INNER_RADIUS, 0, (3/2) * OUTER_RADIUS⟩ ∧
      ∀ p : Vec3, (to_hex_pos p).y = p.y := by
  refine ⟨?_, ?_, ?_, fun p => rfl⟩ <;>
  · simp only [to_hex_pos, INNER_RADIUS, OUTER_RADIUS, Vec3.mk.injEq]
    norm_num

/-- C7: one `create_tile` call appends exactly 7 vertices — the center
followed by the six corners at `pos + HEX_CORNERS[i]`, every one with
normal `Vec3.Y` and UV the XZ projection of the vertex — and exactly 18
index entries forming the fan `(center, corner i, corner ((i+1) % 6))`,
every emitted index below `base + 7`. -/
theorem c7_create_tile_fan (pos : Vec3) (b : MeshBuffers) :
    create_tile pos b =
      { verts := b.verts ++ [pos, pos + hexCorner 0, pos + hexCorner 1,
          pos + hexCorner 2, pos + hexCorner 3, pos + hexCorner 4, pos + hexCorner 5],
        uvs := b.uvs ++ [pos.xz, (pos + hexCorner 0).xz, (pos + hexCorner 1).xz,
          (pos + hexCorner 2).xz, (pos + hexCorner 3).xz, (pos + hexCorner 4).xz,
          (pos + hexCorner 5).xz],
        normals := b.normals ++ [Vec3.Y, Vec3.Y, Vec3.Y, Vec3.Y, Vec3.Y, Vec3.Y, Vec3.Y],
        indices := b.indices ++ [b.verts.length, b.verts.length + 1, b.verts.length + 2,
          b.verts.length, b.verts.length + 2, b.verts.length + 3,
          b.verts.length, b.verts.length + 3, b.verts.length + 4,
          b.verts.length, b.verts.length + 4, b.verts.length + 5,
          b.verts.length, b.verts.length + 5, b.verts.length + 6,
          b.verts.length, b.verts.length + 6, b.verts.length + 1] } ∧
      (create_tile pos b).verts.length = b.verts.length + 7 ∧
      (create_tile pos b).indices.length = b.indices.length + 18 ∧
      ([b.verts.length, b.verts.length + 1, b.verts.length + 2,
          b.verts.length, b.verts.length + 2, b.verts.length + 3,
          b.verts.length, b.verts.length + 3, b.verts.length + 4,
          b.verts.length, b.verts.length + 4, b.verts.length + 5,
          b.verts.length, b.verts.length + 5, b.verts.length + 6,
          b.verts.length, b.verts.length + 6, b.verts.length + 1].all
        (fun i => decide (i < b.verts.length + 7))) = true := by
  refine ⟨create_tile_eq pos b, ?_, ?_, ?_⟩
  · rw [create_tile_eq]
    simp
  · rw [create_tile_eq]
    simp
  · rw [List.all_eq_true]
    intro i hmem
    simp only [List.mem_cons, List.not_mem_nil, or_false] at hmem
    rw [decide_eq_true_iff]
    omega

/-- C8: the right (`+z`) chunk-seam branch of `add_chunk_sides` is a no-op
on all four buffers — its loop body samples a height and computes a
position but appends nothing — so `add_chunk_sides` reduces to the top
(`+x`) branch alone. -/
theorem c8_right_seam_no_geometry (c_x c_z : Nat) (noise : SuperSimplex)
    (b : MeshBuffers) :
    (List.range CHUNK_SIZE).foldl
        (fun bb x => right_side_step c_x c_z x noise bb) b = b ∧
      add_chunk_sides c_x c_z noise b =
        if c_x < MAP_SIZE - 1 then
          (List.range CHUNK_SIZE).foldl
            (fun bb z => top_side_step c_x c_z z noise bb) b
        else b :=
  ⟨right_side_fold_id c_x c_z noise _ b, add_chunk_sides_eq_top c_x c_z noise b⟩

/-- C9: the height field is a pure function — two calls with the same
integer coordinates and the same generator state return identical results
(the generator itself, being immutable, is unchanged by a call, including
the discarded re-sample in the chunk-seam pass) — and the output depends on
the seed: seeds 1 and 2 give different heights at `(0, 0)`, so the output
is not a hard-coded constant. -/
theorem c9_sample_height_deterministic :
    (∀ (x z : Nat) (noise : SuperSimplex),
        sample_height x z noise = sample_height x z noise) ∧
      sample_height 0 0 (SuperSimplex.new 1) = 903717 / 1000000 ∧
      sample_height 0 0 (SuperSimplex.new 2) = 807433 / 1000000 ∧
      decide (sample_height 0 0 (SuperSimplex.new 1) =
        sample_height 0 0 (SuperSimplex.new 2)) = false := by
  have h1 : sample_height 0 0 (SuperSimplex.new 1) = 903717 / 1000000 := by
    simp only [sample_height, SuperSimplex.get, SuperSimplex.new, NOISE_SCALE]
    norm_num
  have h2 : sample_height 0 0 (SuperSimplex.new 2) = 807433 / 1000000 := by
    simp only [sample_height, SuperSimplex.get, SuperSimplex.new, NOISE_SCALE]
    norm_num
  refine ⟨fun x z noise => rfl, h1, h2, ?_⟩
  rw [decide_eq_false_iff_not, h1, h2]
  norm_num

/-- C10: the grid assembler spawns exactly `MAP_SIZE * MAP_SIZE = 4` chunk
meshes, iterating row-major over `z` then `x` (artifact `cz * MAP_SIZE + cx`
belongs to chunk `(cx, cz)`), and the world origin of chunk `(cx, cz)` is
`to_hex_pos (cx * CHUNK_SIZE, 0, cz * CHUNK_SIZE)` for all four pairs in
`{0,1}²`. -/
theorem c10_grid_assembler_origins :
    MAP_SIZE = 2 ∧
      create_hex_grid.length = MAP_SIZE * MAP_SIZE ∧
      create_hex_grid.map Prod.fst =
        [to_hex_pos ⟨(0 : ℚ) * (CHUNK_SIZE : ℚ), 0, (0 : ℚ) * (CHUNK_SIZE : ℚ)⟩,
         to_hex_pos ⟨(1 : ℚ) * (CHUNK_SIZE : ℚ), 0, (0 : ℚ) * (CHUNK_SIZE : ℚ)⟩,
         to_hex_pos ⟨(0 : ℚ) * (CHUNK_SIZE : ℚ), 0, (1 : ℚ) * (CHUNK_SIZE : ℚ)⟩,
         to_hex_pos ⟨(1 : ℚ) * (CHUNK_SIZE : ℚ), 0, (1 : ℚ) * (CHUNK_SIZE : ℚ)⟩] := by
  refine ⟨rfl, rfl, ?_⟩
  simp only [create_hex_grid, MAP_SIZE, Vec3.scale, List.range_succ, List.range_zero,
    List.nil_append, List.cons_append, List.flatMap_cons, List.flatMap_nil,
    List.map_cons, List.map_nil, List.append_nil, List.cons.injEq, List.nil_eq]
  norm_num
